import Mathlib

/-!
Shallow embedding of the HTTP client request pipeline of this repository
(src/lib/services/http.ts, with its collaborators in src/lib/utils/index.ts,
src/lib/constants and src/lib/services/api.ts), together with theorems that
settle the frozen claims about it.

Modelling conventions:
* JavaScript runs on a single event-loop thread; every awaited step of the
  pipeline is therefore modelled as sequential pure state passing over an
  explicit world state (EffWorld: persisted storage, window location,
  redirects, user notices, object URLs).
* Thrown JavaScript values are modelled by the inductive type Thrown.  The
  only throw sites reachable in this program are "new Error(...)" /
  DOMException instances (constructor Thrown.js, carrying name, optional
  numeric-or-string code, message) and the normalized ApiError object built
  in HttpClient.request (constructor Thrown.api, carrying exactly the fields
  code, message, details that the source constructs).
* JSON documents are modelled by Json with integer numbers; none of the
  claims depends on float formatting.
* The network transport (fetch) is an oracle mapping the issued call to a
  behaviour: the response arrives after some delay, the request fails after
  some delay, or nothing ever arrives.  AbortSignal.timeout(t) makes fetch
  reject with a "TimeoutError" DOMException unless the behaviour completes
  strictly before t milliseconds; an aborted call yields no response value,
  which is how "abort" is observable in this model.
-/

namespace HttpSpec

/-- JSON values (response envelopes, storage contents, error codes).
Numbers are restricted to integers; no claim depends on float formatting. -/
inductive Json where
  | null
  | bool (b : Bool)
  | num (n : Int)
  | str (s : String)
  | arr (xs : List Json)
  | obj (fields : List (String × Json))

/-- JavaScript truthiness of a JSON value. -/
def jsTruthy : Json → Bool
  | .null => false
  | .bool b => b
  | .num n => n ≠ 0
  | .str s => s ≠ ""
  | .arr _ => true
  | .obj _ => true

mutual

/-- JavaScript ToString on a JSON value (template literals, new Error(x),
antd message.error display).  Arrays join their elements with commas with
null rendered empty, objects render as "[object Object]". -/
def jsToString : Json → String
  | .null => "null"
  | .bool true => "true"
  | .bool false => "false"
  | .num n => toString n
  | .str s => s
  | .arr xs => jsToStringElems xs
  | .obj _ => "[object Object]"

/-- Comma-joined rendering of array elements, as Array.prototype.toString;
null elements render empty inside a join. -/
def jsToStringElems : List Json → String
  | [] => ""
  | [Json.null] => ""
  | [j] => jsToString j
  | Json.null :: rest => "," ++ jsToStringElems rest
  | j :: rest => jsToString j ++ "," ++ jsToStringElems rest

end

/-- Property lookup on a JSON value: defined fields of objects, undefined
(none) everywhere else. -/
def jlookup : Json → String → Option Json
  | .obj fields, k => (fields.find? (fun kv => kv.1 = k)).map (fun kv => kv.2)
  | _, _ => none

/-- JavaScript object-key assignment on an association list: replace the
value in place when the key exists, append otherwise. -/
def objSet {α : Type} : List (String × α) → String → α → List (String × α)
  | [], k, v => [(k, v)]
  | (k₀, v₀) :: rest, k, v =>
    if k₀ = k then (k, v) :: rest else (k₀, v₀) :: objSet rest k v

/-- JavaScript delete of an object key on an association list. -/
def objDelete {α : Type} (m : List (String × α)) (k : String) : List (String × α) :=
  m.filter (fun kv => kv.1 ≠ k)

/-! ### URL query serialization (URLSearchParams model)

HttpClient.buildURL serializes query parameters through URLSearchParams:
each key and value is converted to its UTF-8 byte sequence and serialized
with the application/x-www-form-urlencoded byte serializer (safe bytes kept,
0x20 becomes a plus sign, every other byte percent-encoded with uppercase
hex digits).  Everything here works on lists of byte / character codes
(natural numbers below 256 for bytes, ASCII codes for serializer output). -/

/-- UTF-8 encoding of a single character as a byte-code list. -/
def utf8Char (c : Char) : List Nat :=
  let n := c.toNat
  if n < 128 then [n]
  else if n < 2048 then [192 + n / 64, 128 + n % 64]
  else if n < 65536 then [224 + n / 4096, 128 + (n / 64) % 64, 128 + n % 64]
  else [240 + n / 262144, 128 + (n / 4096) % 64, 128 + (n / 64) % 64, 128 + n % 64]

/-- UTF-8 byte sequence of a string. -/
def strBytes (s : String) : List Nat :=
  s.data.flatMap utf8Char

/-- Bytes kept verbatim by the application/x-www-form-urlencoded serializer:
asterisk, hyphen, period, digits, ASCII letters, underscore. -/
def isSafeByte (b : Nat) : Bool :=
  b = 42 || b = 45 || b = 46 || (48 ≤ b && b ≤ 57) || (65 ≤ b && b ≤ 90) ||
    b = 95 || (97 ≤ b && b ≤ 122)

/-- Uppercase hexadecimal digit character code for a nibble. -/
def hexDigitCode (n : Nat) : Nat :=
  if n < 10 then 48 + n else 55 + n

/-- Numeric value of a hexadecimal digit character code. -/
def hexVal (c : Nat) : Nat :=
  if c < 58 then c - 48 else if c < 97 then c - 55 else c - 87

/-- Form-urlencoded serialization of one byte: safe bytes verbatim, space as
plus (code 43), anything else percent-escaped (code 37 then two hex digits). -/
def encByte (b : Nat) : List Nat :=
  if b = 32 then [43]
  else if isSafeByte b then [b]
  else [37, hexDigitCode (b / 16), hexDigitCode (b % 16)]

/-- Form-urlencoded serialization of a byte sequence. -/
def formEncode (bs : List Nat) : List Nat :=
  bs.flatMap encByte

/-- Form-urlencoded decoding back to a byte sequence: percent-escapes and
plus signs are undone, everything else is kept verbatim. -/
def formDecode : List Nat → List Nat
  | [] => []
  | b :: rest =>
    if b = 37 then
      match rest with
      | h :: l :: rest₂ => (hexVal h * 16 + hexVal l) :: formDecode rest₂
      | [] => [b]
      | [h] => b :: (if h = 43 then [32] else [h])
    else if b = 43 then 32 :: formDecode rest
    else b :: formDecode rest

/-- Serialized codes of one key-value pair: encoded key, equals sign
(code 61), encoded value. -/
def pairCodes (kv : String × String) : List Nat :=
  formEncode (strBytes kv.1) ++ 61 :: formEncode (strBytes kv.2)

/-- Join components with ampersands (code 38). -/
def joinAmp : List (List Nat) → List Nat
  | [] => []
  | [c] => c
  | c :: rest => c ++ 38 :: joinAmp rest

/-- URLSearchParams.toString on a pair list: pair serializations joined by
ampersands (code 38). -/
def serializePairs (l : List (String × String)) : List Nat :=
  joinAmp (l.map pairCodes)

/-- Split a serialized query at ampersands, accumulator version. -/
def splitAmpAux : List Nat → List Nat → List (List Nat)
  | [], acc => [acc.reverse]
  | b :: rest, acc =>
    if b = 38 then acc.reverse :: splitAmpAux rest []
    else splitAmpAux rest (b :: acc)

/-- Split a serialized query at ampersands; the empty query has no pairs. -/
def splitAmp : List Nat → List (List Nat)
  | [] => []
  | b :: rest => splitAmpAux (b :: rest) []

/-- Split one serialized pair at its first equals sign, accumulator version. -/
def splitEqAux : List Nat → List Nat → List Nat × List Nat
  | [], acc => (acc.reverse, [])
  | b :: rest, acc =>
    if b = 61 then (acc.reverse, rest) else splitEqAux rest (b :: acc)

/-- Split one serialized pair at its first equals sign. -/
def splitEq (cs : List Nat) : List Nat × List Nat :=
  splitEqAux cs []

/-- Parse a serialized query string back into encoded key-value components. -/
def splitQuery (cs : List Nat) : List (List Nat × List Nat) :=
  (splitAmp cs).map splitEq

/-- Render serializer output codes (all ASCII) as a string. -/
def codesToString (cs : List Nat) : String :=
  String.mk (cs.map Char.ofNat)

/-! ### Request descriptors (RequestConfig) -/

/-- HTTP verbs supported by RequestConfig.method. -/
inductive Method where
  | GET | POST | PUT | DELETE | PATCH
deriving DecidableEq

/-- A query-parameter value (Record of string keys to scalar values);
null and undefined are distinguished because buildURL tests both. -/
inductive ParamValue where
  | null
  | undef
  | str (s : String)
  | num (n : Int)
  | bool (b : Bool)

/-- A file handle passed to upload (only its name is observable here). -/
structure FileV where
  name : String

/-- A request body payload: either an arbitrary JSON-serializable value or a
multipart FormData instance (the branch RequestConfig.data instanceof
FormData distinguishes in the source). -/
inductive JsData where
  | json (j : Json)
  | formData (entries : List (String × FileV))

/-- The RequestConfig interface of src/lib/services/http.ts.  Absent
optional fields are none; absent headers are the empty record. -/
structure RequestConfig where
  url : String
  method : Option Method := none
  params : Option (List (String × ParamValue)) := none
  data : Option JsData := none
  headers : List (String × String) := []
  timeout : Option Nat := none

/-- The guard in buildURL: value is neither null nor undefined nor the
empty string. -/
def keepParam : ParamValue → Bool
  | .null => false
  | .undef => false
  | .str s => s ≠ ""
  | .num _ => true
  | .bool _ => true

/-- JavaScript String(value) on a parameter value. -/
def paramToString : ParamValue → String
  | .null => "null"
  | .undef => "undefined"
  | .str s => s
  | .num n => toString n
  | .bool true => "true"
  | .bool false => "false"

/-- The URLSearchParams accumulated by buildURL: parameters appended in
order, skipping null / undefined / empty-string values. -/
def searchParamsOf (ps : List (String × ParamValue)) : List (String × String) :=
  ps.foldl
    (fun acc kv => if keepParam kv.2 then acc ++ [(kv.1, paramToString kv.2)] else acc) []

/-- The test url.startsWith("http") of buildURL. -/
def startsWithHttp (s : String) : Bool :=
  "http".data.isPrefixOf s.data

/-- HttpClient.buildURL: prefix the base URL unless the path is absolute,
then attach the serialized query string when it is nonempty. -/
def buildURL (baseURL url : String) (params : Option (List (String × ParamValue))) :
    String :=
  let fullURL := if startsWithHttp url then url else baseURL ++ url
  match params with
  | none => fullURL
  | some ps =>
    let queryString := codesToString (serializePairs (searchParamsOf ps))
    if queryString ≠ "" then fullURL ++ "?" ++ queryString else fullURL

/-! ### Thrown values and API errors -/

/-- JavaScript values thrown inside the pipeline.  Thrown.js covers Error and
DOMException instances (name, the optional legacy numeric code property,
message); Thrown.api is the normalized ApiError literal built in
HttpClient.request with exactly the properties code, message and details.
These are the only shapes thrown by the code in this repository; neither
shape carries a status property. -/
inductive Thrown where
  | js (name : String) (code : Option Json) (msg : String)
  | api (code : Json) (msg : Json) (details : Thrown)

/-- Property read error.code (undefined on plain Error instances). -/
def thrownCode : Thrown → Option Json
  | .js _ c _ => c
  | .api c _ _ => some c

/-- Property read error.message. -/
def thrownMsg : Thrown → Option Json
  | .js _ _ m => some (.str m)
  | .api _ m _ => some m

/-- Property read error.status: neither Error / DOMException instances nor
the normalized ApiError literal define one, so it is always undefined. -/
def thrownStatus : Thrown → Option Json
  | .js _ _ _ => none
  | .api _ _ _ => none

/-- error.code with the UNKNOWN_ERROR default of HttpClient.request
(JavaScript or-else on a possibly undefined, possibly falsy value). -/
def codeOrDefault (u : Thrown) : Json :=
  match thrownCode u with
  | some c => if jsTruthy c then c else .str "UNKNOWN_ERROR"
  | none => .str "UNKNOWN_ERROR"

/-- ERROR_MESSAGES.UNKNOWN_ERROR of src/lib/constants. -/
def UNKNOWN_ERROR_MSG : String := "未知错误，请联系管理员"

/-- ERROR_MESSAGES.SERVER_ERROR of src/lib/constants. -/
def SERVER_ERROR_MSG : String := "服务器内部错误，请稍后重试"

/-- ERROR_MESSAGES.UNAUTHORIZED of src/lib/constants. -/
def UNAUTHORIZED_MSG : String := "未授权访问，请重新登录"

/-- ERROR_MESSAGES.FORBIDDEN of src/lib/constants. -/
def FORBIDDEN_MSG : String := "权限不足，无法访问该资源"

/-- error.message with the generic fallback of HttpClient.request. -/
def msgOrDefault (u : Thrown) : Json :=
  match thrownMsg u with
  | some m => if jsTruthy m then m else .str UNKNOWN_ERROR_MSG
  | none => .str UNKNOWN_ERROR_MSG

/-- The ApiError literal built in the catch block of HttpClient.request:
code and message defaulted, details carrying the original failure. -/
def normalizeError (u : Thrown) : Thrown :=
  .api (codeOrDefault u) (msgOrDefault u) u

/-! ### The observable world and the instrumentation trace -/

/-- Mutable browser state the pipeline touches: persisted localStorage
(values already JSON-decoded, as storageUtils serializes and parses
round-trip), window.location.pathname, assignments to window.location.href,
antd message.error notices, and object URLs created / revoked by download. -/
structure EffWorld where
  storage : List (String × Json) := []
  locationPath : String := "/"
  redirects : List String := []
  notices : List String := []
  objectURLs : List Nat := []
  revokedURLs : List Nat := []

/-- storageUtils.get: parsed value of the stored key, null (none) if absent. -/
def storageGet (st : List (String × Json)) (k : String) : Option Json :=
  (st.find? (fun kv => kv.1 = k)).map (fun kv => kv.2)

/-- storageUtils.remove. -/
def storageRemove (st : List (String × Json)) (k : String) : List (String × Json) :=
  st.filter (fun kv => kv.1 ≠ k)

/-- STORAGE_KEYS.TOKEN of src/lib/constants. -/
def TOKEN_KEY : String := "auth_token"

/-- The body handed to fetch: either JSON.stringify of the data payload or
the FormData instance itself. -/
inductive FetchBody where
  | stringified (data : Json)
  | formData (entries : List (String × FileV))

/-- One issued transport call: final URL, verb, headers, optional body and
the milliseconds passed to AbortSignal.timeout. -/
structure FetchCall where
  url : String
  method : Method
  headers : List (String × String)
  body : Option FetchBody
  timeoutMs : Nat

/-- Instrumentation events recorded by the pipeline driver (not visible to
interceptor code): which interceptor ran, with which descriptor for request
interceptors, and every transport call issued. -/
inductive Event where
  | reqInvoked (id : Nat) (c : RequestConfig)
  | respInvoked (id : Nat)
  | errInvoked (id : Nat)
  | fetched (call : FetchCall)

/-- World = browser state visible to interceptor code plus the
instrumentation trace only the pipeline driver appends to. -/
structure World where
  eff : EffWorld
  trace : List Event := []

/-- Append one instrumentation event. -/
def World.log (w : World) (e : Event) : World :=
  { w with trace := w.trace ++ [e] }

/-! ### Interceptors and the HttpClient -/

/-- A value travelling through the response-interceptor chain: the raw fetch
Response (status plus its body parsed as JSON, none when the body is not
valid JSON so that response.json() rejects) or an already unwrapped JSON
value. -/
structure TransportResponse where
  status : Nat
  jsonBody : Option Json

/-- Chain value for response interceptors. -/
inductive RespVal where
  | response (r : TransportResponse)
  | json (j : Json)

/-- A registered request interceptor: an instrumentation id plus its effect
on the browser state and the descriptor (await makes it sequential). -/
structure ReqInterceptor where
  id : Nat
  run : EffWorld → RequestConfig → EffWorld × Except Thrown RequestConfig

/-- A registered response interceptor. -/
structure RespInterceptor where
  id : Nat
  run : EffWorld → RespVal → EffWorld × Except Thrown RespVal

/-- A registered error interceptor; its return value is discarded by
applyErrorInterceptors, only its effects and whether it throws matter. -/
structure ErrInterceptor where
  id : Nat
  run : EffWorld → Thrown → EffWorld × Except Thrown Unit

/-- The HttpClient instance state: base configuration plus the three ordered
interceptor registries. -/
structure HttpClient where
  baseURL : String
  timeout : Nat
  requestInterceptors : List ReqInterceptor := []
  responseInterceptors : List RespInterceptor := []
  errorInterceptors : List ErrInterceptor := []

/-- HttpClient.addRequestInterceptor: push to the end of the registry. -/
def HttpClient.addRequestInterceptor (cl : HttpClient) (i : ReqInterceptor) : HttpClient :=
  { cl with requestInterceptors := cl.requestInterceptors ++ [i] }

/-- HttpClient.addResponseInterceptor: push to the end of the registry. -/
def HttpClient.addResponseInterceptor (cl : HttpClient) (i : RespInterceptor) : HttpClient :=
  { cl with responseInterceptors := cl.responseInterceptors ++ [i] }

/-- HttpClient.addErrorInterceptor: push to the end of the registry. -/
def HttpClient.addErrorInterceptor (cl : HttpClient) (i : ErrInterceptor) : HttpClient :=
  { cl with errorInterceptors := cl.errorInterceptors ++ [i] }

/-- Default request interceptor (setupDefaultInterceptors): when a persisted
auth token exists, spread an Authorization bearer header onto the
descriptor's headers. -/
def defaultRequestInterceptor : ReqInterceptor :=
  ⟨0, fun eff c =>
    match storageGet eff.storage TOKEN_KEY with
    | some token =>
      if jsTruthy token then
        (eff, .ok { c with
          headers := objSet c.headers "Authorization" ("Bearer " ++ jsToString token) })
      else (eff, .ok c)
    | none => (eff, .ok c)⟩

/-- data.message with the SERVER_ERROR fallback used by the default response
interceptor: new Error(data.message or ERROR_MESSAGES.SERVER_ERROR). -/
def serverErrMsg (data : Json) : String :=
  match jlookup data "message" with
  | some m => if jsTruthy m then jsToString m else SERVER_ERROR_MSG
  | none => SERVER_ERROR_MSG

/-- Default response interceptor (setupDefaultInterceptors): a raw Response
is parsed as JSON (rejecting with a SyntaxError when the body is not JSON);
a non-ok status (outside 200-299) throws an Error carrying the
server-supplied message or the generic server-error message; otherwise the
parsed body is returned.  Non-Response values pass through unchanged. -/
def defaultResponseInterceptor : RespInterceptor :=
  ⟨0, fun eff v =>
    match v with
    | .response r =>
      match r.jsonBody with
      | none => (eff, .error (.js "SyntaxError" none "Unexpected end of JSON input"))
      | some data =>
        if 200 ≤ r.status ∧ r.status < 300 then (eff, .ok (.json data))
        else (eff, .error (.js "Error" none (serverErrMsg data)))
    | .json j => (eff, .ok (.json j))⟩

/-- Substring occurrence test on character lists. -/
def hasSub (needle : List Char) : List Char → Bool
  | [] => needle.isEmpty
  | c :: rest => needle.isPrefixOf (c :: rest) || hasSub needle rest

/-- The test window.location.pathname.includes("/login"). -/
def pathIncludesLogin (p : String) : Bool :=
  hasSub "/login".data p.data

/-- Default error interceptor (setupDefaultInterceptors), translated with
its three branches: on error.status 401 clear the token, redirect to /login
unless already there and notify; on 403 notify; otherwise notify with the
error's message or the generic fallback.  The error is re-thrown in every
branch. -/
def defaultErrorInterceptor : ErrInterceptor :=
  ⟨0, fun eff error =>
    match thrownStatus error with
    | some (.num 401) =>
      let eff₁ := { eff with storage := storageRemove eff.storage TOKEN_KEY }
      let eff₂ :=
        if pathIncludesLogin eff₁.locationPath then eff₁
        else { eff₁ with redirects := eff₁.redirects ++ ["/login"] }
      ({ eff₂ with notices := eff₂.notices ++ [UNAUTHORIZED_MSG] }, .error error)
    | some (.num 403) =>
      ({ eff with notices := eff.notices ++ [FORBIDDEN_MSG] }, .error error)
    | _ =>
      let m :=
        match thrownMsg error with
        | some mv => if jsTruthy mv then jsToString mv else UNKNOWN_ERROR_MSG
        | none => UNKNOWN_ERROR_MSG
      ({ eff with notices := eff.notices ++ [m] }, .error error)⟩

/-- The HttpClient constructor: store base URL and default timeout, then
register the three default interceptors first. -/
def HttpClient.create (baseURL : String) (timeout : Nat) : HttpClient :=
  { baseURL := baseURL, timeout := timeout,
    requestInterceptors := [defaultRequestInterceptor],
    responseInterceptors := [defaultResponseInterceptor],
    errorInterceptors := [defaultErrorInterceptor] }

/-- The exported default instance: API_BASE_URL falls back to "/api", the
default timeout is 10000 ms. -/
def http : HttpClient :=
  HttpClient.create "/api" 10000

/-- applyRequestInterceptors: fold the descriptor through the registry in
order, each interceptor awaited and receiving the previous output; a thrown
error aborts the chain.  The driver logs each invocation with its input. -/
def applyRequestInterceptors :
    List ReqInterceptor → World → RequestConfig → World × Except Thrown RequestConfig
  | [], w, c => (w, .ok c)
  | i :: is, w, c =>
    let w₁ := w.log (.reqInvoked i.id c)
    match i.run w₁.eff c with
    | (eff₂, .ok c₂) => applyRequestInterceptors is ⟨eff₂, w₁.trace⟩ c₂
    | (eff₂, .error e) => (⟨eff₂, w₁.trace⟩, .error e)

/-- applyResponseInterceptors: same folding discipline on response values. -/
def applyResponseInterceptors :
    List RespInterceptor → World → RespVal → World × Except Thrown RespVal
  | [], w, v => (w, .ok v)
  | i :: is, w, v =>
    let w₁ := w.log (.respInvoked i.id)
    match i.run w₁.eff v with
    | (eff₂, .ok v₂) => applyResponseInterceptors is ⟨eff₂, w₁.trace⟩ v₂
    | (eff₂, .error e) => (⟨eff₂, w₁.trace⟩, .error e)

/-- applyErrorInterceptors: every registered error interceptor runs on the
same error object in order; anything an interceptor throws is swallowed by
the try/catch around it and the chain continues. -/
def applyErrorInterceptors : List ErrInterceptor → World → Thrown → World
  | [], w, _ => w
  | i :: is, w, e =>
    let w₁ := w.log (.errInvoked i.id)
    applyErrorInterceptors is ⟨(i.run w₁.eff e).1, w₁.trace⟩ e

/-! ### The transport and the core request operation -/

/-- Behaviour of the network for one issued call: the response arrives after
a delay, the request fails after a delay, or nothing ever arrives. -/
inductive FetchBehavior where
  | arrives (afterMs : Nat) (r : TransportResponse)
  | fails (afterMs : Nat) (msg : String)
  | hangs

/-- The DOMException produced when AbortSignal.timeout fires (name
"TimeoutError", legacy code 23). -/
def timeoutThrown : Thrown :=
  .js "TimeoutError" (some (.num 23)) "signal timed out"

/-- Result of fetch under AbortSignal.timeout(t): the behaviour must
complete strictly before t, otherwise the call is aborted and rejects with
the TimeoutError DOMException; an early network failure rejects with a
TypeError. -/
def fetchResult (b : FetchBehavior) (t : Nat) : Except Thrown TransportResponse :=
  match b with
  | .arrives a r => if a < t then .ok r else .error timeoutThrown
  | .fails a m => if a < t then .error (.js "TypeError" none m) else .error timeoutThrown
  | .hangs => .error timeoutThrown

/-- finalConfig.timeout or-else this.timeout (JavaScript or-else: a zero
override is falsy and falls back to the client default). -/
def timeoutOrDefault (t : Option Nat) (d : Nat) : Nat :=
  match t with
  | some n => if n ≠ 0 then n else d
  | none => d

/-- Default headers spread with the descriptor's header overrides:
Content-Type application/json first, each override then set on top. -/
def mergedHeaders (ov : List (String × String)) : List (String × String) :=
  ov.foldl (fun m kv => objSet m kv.1 kv.2) [("Content-Type", "application/json")]

/-- The body-attachment guard: methods POST, PUT, PATCH. -/
def methodAllowsBody : Method → Bool
  | .POST => true
  | .PUT => true
  | .PATCH => true
  | _ => false

/-- Truthiness of finalConfig.data. -/
def dataTruthy : Option JsData → Bool
  | none => false
  | some (.formData _) => true
  | some (.json j) => jsTruthy j

/-- Steps 2-4 of HttpClient.request on the final descriptor: merge headers,
pick the verb (GET by default) and the timeout, attach the body only for
truthy data on POST / PUT / PATCH (deleting the Content-Type entry for
FormData payloads, serializing everything else), and build the full URL. -/
def mkFetchCall (cl : HttpClient) (fc : RequestConfig) : FetchCall :=
  let headers := mergedHeaders fc.headers
  let m := fc.method.getD .GET
  let hb : List (String × String) × Option FetchBody :=
    if methodAllowsBody m && dataTruthy fc.data then
      match fc.data with
      | some (.formData f) => (objDelete headers "Content-Type", some (.formData f))
      | some (.json j) => (headers, some (.stringified j))
      | none => (headers, none)
    else (headers, none)
  { url := buildURL cl.baseURL fc.url fc.params
    method := m
    headers := hb.1
    body := hb.2
    timeoutMs := timeoutOrDefault fc.timeout cl.timeout }

/-- The try block of HttpClient.request: request-interceptor chain, the
fetch call under its timeout signal, then the response-interceptor chain.
Any thrown value surfaces as the error of the result. -/
def requestTry (cl : HttpClient) (cfg : RequestConfig)
    (transport : FetchCall → FetchBehavior) (w : World) : World × Except Thrown RespVal :=
  match applyRequestInterceptors cl.requestInterceptors w cfg with
  | (w₁, .error e) => (w₁, .error e)
  | (w₁, .ok fc) =>
    let call := mkFetchCall cl fc
    let w₂ := w₁.log (.fetched call)
    match fetchResult (transport call) call.timeoutMs with
    | .error e => (w₂, .error e)
    | .ok resp => applyResponseInterceptors cl.responseInterceptors w₂ (.response resp)

/-- HttpClient.request: on any failure of the try block, build the
normalized ApiError, run the full error-interceptor chain on it (throws
swallowed) and re-raise that same ApiError to the caller. -/
def request (cl : HttpClient) (cfg : RequestConfig)
    (transport : FetchCall → FetchBehavior) (w : World) : World × Except Thrown RespVal :=
  match requestTry cl cfg transport w with
  | (w₁, .ok v) => (w₁, .ok v)
  | (w₁, .error u) =>
    let apiError := normalizeError u
    (applyErrorInterceptors cl.errorInterceptors w₁ apiError, .error apiError)

/-! ### Verb helpers -/

/-- A Partial RequestConfig override passed to the verb helpers; present
fields (some) replace the assembled descriptor's fields by object spread. -/
structure ConfigOverride where
  url : Option String := none
  method : Option Method := none
  params : Option (List (String × ParamValue)) := none
  data : Option JsData := none
  headers : Option (List (String × String)) := none
  timeout : Option Nat := none

/-- Object spread of an override onto an assembled descriptor. -/
def mergeConfig (base : RequestConfig) (ov : ConfigOverride) : RequestConfig :=
  { url := ov.url.getD base.url
    method := match ov.method with | some m => some m | none => base.method
    params := match ov.params with | some p => some p | none => base.params
    data := match ov.data with | some d => some d | none => base.data
    headers := ov.headers.getD base.headers
    timeout := match ov.timeout with | some t => some t | none => base.timeout }

/-- HttpClient.get. -/
def HttpClient.get (cl : HttpClient) (url : String)
    (params : Option (List (String × ParamValue))) (ov : ConfigOverride)
    (transport : FetchCall → FetchBehavior) (w : World) : World × Except Thrown RespVal :=
  request cl (mergeConfig { url := url, method := some .GET, params := params } ov)
    transport w

/-- HttpClient.post. -/
def HttpClient.post (cl : HttpClient) (url : String) (data : Option JsData)
    (ov : ConfigOverride) (transport : FetchCall → FetchBehavior) (w : World) :
    World × Except Thrown RespVal :=
  request cl (mergeConfig { url := url, method := some .POST, data := data } ov)
    transport w

/-- HttpClient.put. -/
def HttpClient.put (cl : HttpClient) (url : String) (data : Option JsData)
    (ov : ConfigOverride) (transport : FetchCall → FetchBehavior) (w : World) :
    World × Except Thrown RespVal :=
  request cl (mergeConfig { url := url, method := some .PUT, data := data } ov)
    transport w

/-- HttpClient.patch. -/
def HttpClient.patch (cl : HttpClient) (url : String) (data : Option JsData)
    (ov : ConfigOverride) (transport : FetchCall → FetchBehavior) (w : World) :
    World × Except Thrown RespVal :=
  request cl (mergeConfig { url := url, method := some .PATCH, data := data } ov)
    transport w

/-- HttpClient.delete. -/
def HttpClient.delete (cl : HttpClient) (url : String) (ov : ConfigOverride)
    (transport : FetchCall → FetchBehavior) (w : World) : World × Except Thrown RespVal :=
  request cl (mergeConfig { url := url, method := some .DELETE } ov) transport w

/-! ### userApi.getUsers (src/lib/services/api.ts) -/

/-- The optional PaginationParams and search argument of userApi.getUsers. -/
structure GetUsersParams where
  current : Option Int := none
  pageSize : Option Int := none
  search : Option String := none

/-- The URL userApi.getUsers assembles and passes to http.get: a fresh
URLSearchParams receives current, pageSize and search only when truthy (so
zero and the empty string are dropped), and the query string is appended to
/users only when nonempty. -/
def getUsersUrl (p : GetUsersParams) : String :=
  let qp : List (String × String) := []
  let qp :=
    match p.current with
    | some n => if n ≠ 0 then objSet qp "current" (toString n) else qp
    | none => qp
  let qp :=
    match p.pageSize with
    | some n => if n ≠ 0 then objSet qp "pageSize" (toString n) else qp
    | none => qp
  let qp :=
    match p.search with
    | some s => if s ≠ "" then objSet qp "search" s else qp
    | none => qp
  let queryString := codesToString (serializePairs qp)
  if queryString ≠ "" then "/users?" ++ queryString else "/users"

/-! ### upload (XMLHttpRequest path)

HttpClient.upload drives an XMLHttpRequest by hand.  The XHR state machine
requires setRequestHeader to be called while the request is OPENED (after
open, before send); calling it in the initial UNSENT state throws an
InvalidStateError DOMException, which inside the promise executor rejects
the returned promise.  The source calls setRequestHeader BEFORE open. -/

/-- What the network does with a sent upload: the load event fires with a
status and the JSON.parse outcome of the response text (none when the text
is not valid JSON), or the error event fires. -/
inductive UploadOutcome where
  | completes (status : Nat) (body : Option Json)
  | netError

/-- The request an upload actually puts on the wire. -/
structure UploadSent where
  url : String
  method : Method
  headers : List (String × String)
  form : List (String × FileV)

/-- The InvalidStateError DOMException (legacy code 11) thrown by
setRequestHeader when the XHR is not in the OPENED state. -/
def invalidStateThrown : Thrown :=
  .js "InvalidStateError" (some (.num 11)) "setRequestHeader was called before open"

/-- HttpClient.upload: build the FormData with field "file", register the
handlers, then call setRequestHeader with the bearer token when one is
persisted — the XHR is still UNSENT at that point, so a truthy token makes
the executor throw InvalidStateError and the promise reject with nothing
ever sent.  Without a token the call is opened and sent, resolving with the
parsed body exactly on a 2xx status and rejecting otherwise. -/
def HttpClient.upload (cl : HttpClient) (url : String) (file : FileV) (eff : EffWorld)
    (outcome : UploadOutcome) : Option UploadSent × Except Thrown Json :=
  let formData : List (String × FileV) := [("file", file)]
  let tokenTruthy :=
    match storageGet eff.storage TOKEN_KEY with
    | some token => jsTruthy token
    | none => false
  if tokenTruthy then
    (none, .error invalidStateThrown)
  else
    let sent : UploadSent :=
      { url := buildURL cl.baseURL url none, method := .POST, headers := [],
        form := formData }
    match outcome with
    | .completes status body =>
      if 200 ≤ status ∧ status < 300 then
        match body with
        | some j => (some sent, .ok j)
        | none => (some sent, .error (.js "Error" none "Invalid JSON response"))
      else
        (some sent,
          .error (.js "Error" none ("Upload failed with status " ++ toString status)))
    | .netError => (some sent, .error (.js "Error" none "Upload failed"))

/-! ### download -/

/-- Settled outcome of the plain (untimed) fetch issued by download. -/
inductive DlFetch where
  | resp (status : Nat)
  | netErr (msg : String)

/-- External outcomes the download path can encounter: the fetch result,
the blob decode, and the DOM save action (createElement, appendChild, click,
removeChild — any of which the platform may fail). -/
structure DownloadEnv where
  outcome : DlFetch
  blobResult : Except Thrown Unit
  saveResult : Except Thrown Unit

/-- HttpClient.download: fetch with the bearer header, throw on a non-ok
status, read the blob, create an object URL, run the DOM save action and
only then revoke the URL; the catch block notifies and re-throws.  There is
no finally: a failure after the object URL is created skips the revoke. -/
def HttpClient.download (_cl : HttpClient) (_url : String) (_filename : Option String)
    (eff : EffWorld) (env : DownloadEnv) : EffWorld × Except Thrown Unit :=
  let inner : EffWorld × Except Thrown Unit :=
    match env.outcome with
    | .netErr m => (eff, .error (.js "TypeError" none m))
    | .resp status =>
      if 200 ≤ status ∧ status < 300 then
        match env.blobResult with
        | .error e => (eff, .error e)
        | .ok _ =>
          let urlId := eff.objectURLs.length
          let eff₁ := { eff with objectURLs := eff.objectURLs ++ [urlId] }
          match env.saveResult with
          | .error e => (eff₁, .error e)
          | .ok _ =>
            ({ eff₁ with revokedURLs := eff₁.revokedURLs ++ [urlId] }, .ok ())
      else (eff, .error (.js "Error" none "Download failed"))
  match inner with
  | (e, .ok _) => (e, .ok ())
  | (e, .error err) => ({ e with notices := e.notices ++ ["文件下载失败"] }, .error err)

/-! ### Helper lemmas about the pipeline -/

/-- Transport calls recorded in a trace. -/
def fetchedOf (e : Event) : Option FetchCall :=
  match e with
  | .fetched c => some c
  | _ => none

/-- All transport calls recorded in a trace, in order. -/
def fetchedCalls (tr : List Event) : List FetchCall :=
  tr.filterMap fetchedOf

theorem fetchedCalls_append (l₁ l₂ : List Event) :
    fetchedCalls (l₁ ++ l₂) = fetchedCalls l₁ ++ fetchedCalls l₂ := by
  simp [fetchedCalls]

/-- The error-interceptor chain always runs every registered interceptor,
in registration order, whether or not any of them throws. -/
theorem applyErrorInterceptors_trace (is : List ErrInterceptor) (w : World) (e : Thrown) :
    (applyErrorInterceptors is w e).trace
      = w.trace ++ is.map (fun i => Event.errInvoked i.id) := by
  induction is generalizing w with
  | nil => simp [applyErrorInterceptors]
  | cons i is ih =>
    simp [applyErrorInterceptors, ih, World.log, List.append_assoc]

theorem fetchedCalls_errApply (is : List ErrInterceptor) (w : World) (e : Thrown) :
    fetchedCalls (applyErrorInterceptors is w e).trace = fetchedCalls w.trace := by
  rw [applyErrorInterceptors_trace, fetchedCalls_append]
  have : fetchedCalls (is.map (fun i => Event.errInvoked i.id)) = [] := by
    induction is with
    | nil => rfl
    | cons i is ih => simp [fetchedCalls, fetchedOf] at ih ⊢
  simp [this]

theorem fetchedCalls_respApply (is : List RespInterceptor) (w : World) (v : RespVal) :
    fetchedCalls (applyResponseInterceptors is w v).1.trace = fetchedCalls w.trace := by
  induction is generalizing w v with
  | nil => simp [applyResponseInterceptors]
  | cons i is ih =>
    simp only [applyResponseInterceptors]
    cases h : i.run (w.log (.respInvoked i.id)).eff v with
    | mk eff₂ r =>
      cases r with
      | ok v₂ =>
        simp only [ih]
        simp [World.log, fetchedCalls_append, fetchedCalls, fetchedOf]
      | error e =>
        simp [World.log, fetchedCalls_append, fetchedCalls, fetchedOf]

/-- Unfolding HttpClient.request when the try block fails. -/
theorem request_error_eq (cl : HttpClient) (cfg : RequestConfig)
    (transport : FetchCall → FetchBehavior) (w : World) (u : Thrown)
    (h : (requestTry cl cfg transport w).2 = Except.error u) :
    request cl cfg transport w
      = (applyErrorInterceptors cl.errorInterceptors (requestTry cl cfg transport w).1
          (normalizeError u),
         Except.error (normalizeError u)) := by
  have hX : requestTry cl cfg transport w
      = ((requestTry cl cfg transport w).1, Except.error u) := by
    rw [← h]
  unfold request
  rw [hX]

/-- Unfolding HttpClient.request when the try block succeeds. -/
theorem request_ok_eq (cl : HttpClient) (cfg : RequestConfig)
    (transport : FetchCall → FetchBehavior) (w : World) (v : RespVal)
    (h : (requestTry cl cfg transport w).2 = Except.ok v) :
    request cl cfg transport w = ((requestTry cl cfg transport w).1, Except.ok v) := by
  have hX : requestTry cl cfg transport w
      = ((requestTry cl cfg transport w).1, Except.ok v) := by
    rw [← h]
  unfold request
  rw [hX]

/-- Unfolding the try block once the request-interceptor phase has
delivered a final descriptor. -/
theorem requestTry_phase_eq (cl : HttpClient) (cfg : RequestConfig)
    (transport : FetchCall → FetchBehavior) (w w₁ : World) (fc : RequestConfig)
    (h : applyRequestInterceptors cl.requestInterceptors w cfg = (w₁, Except.ok fc)) :
    requestTry cl cfg transport w
      = match fetchResult (transport (mkFetchCall cl fc)) (mkFetchCall cl fc).timeoutMs with
        | .error e => (w₁.log (.fetched (mkFetchCall cl fc)), .error e)
        | .ok resp =>
          applyResponseInterceptors cl.responseInterceptors
            (w₁.log (.fetched (mkFetchCall cl fc))) (.response resp) := by
  unfold requestTry
  rw [h]

/-- Every completed request records exactly one transport call after the
request-interceptor phase: the call assembled by mkFetchCall. -/
theorem request_fetch_log (cl : HttpClient) (cfg : RequestConfig)
    (transport : FetchCall → FetchBehavior) (w w₁ : World) (fc : RequestConfig)
    (h : applyRequestInterceptors cl.requestInterceptors w cfg = (w₁, Except.ok fc)) :
    fetchedCalls (request cl cfg transport w).1.trace
      = fetchedCalls w₁.trace ++ [mkFetchCall cl fc] := by
  have hTry := requestTry_phase_eq cl cfg transport w w₁ fc h
  cases hf : fetchResult (transport (mkFetchCall cl fc)) (mkFetchCall cl fc).timeoutMs with
  | error e =>
    rw [hf] at hTry
    have h₂ : (requestTry cl cfg transport w).2 = Except.error e := by rw [hTry]
    rw [request_error_eq cl cfg transport w e h₂, ]
    simp only [fetchedCalls_errApply]
    rw [hTry]
    simp [World.log, fetchedCalls_append, fetchedCalls, fetchedOf]
  | ok resp =>
    rw [hf] at hTry
    cases hr : (applyResponseInterceptors cl.responseInterceptors
        (w₁.log (.fetched (mkFetchCall cl fc))) (.response resp)).2 with
    | ok v =>
      have h₂ : (requestTry cl cfg transport w).2 = Except.ok v := by rw [hTry, hr]
      rw [request_ok_eq cl cfg transport w v h₂, hTry]
      rw [fetchedCalls_respApply]
      simp [World.log, fetchedCalls_append, fetchedCalls, fetchedOf]
    | error u =>
      have h₂ : (requestTry cl cfg transport w).2 = Except.error u := by rw [hTry, hr]
      rw [request_error_eq cl cfg transport w u h₂]
      simp only [fetchedCalls_errApply]
      rw [hTry, fetchedCalls_respApply]
      simp [World.log, fetchedCalls_append, fetchedCalls, fetchedOf]

/-! ### Shared concrete fixtures for witnesses and counterexamples -/

/-- A minimal GET descriptor. -/
def cfgX : RequestConfig := { url := "/x" }

/-- An empty browser world (no token, root path, clean trace). -/
def wEmptyW : World := { eff := {} }

/-- A transport whose request fails immediately with a network error. -/
def trFailW : FetchCall → FetchBehavior := fun _ => .fails 0 "Failed to fetch"

/-- A transport that never answers. -/
def trHangs : FetchCall → FetchBehavior := fun _ => .hangs

/-- A successful envelope response. -/
def resp200 : TransportResponse :=
  { status := 200, jsonBody := some (.obj [("success", .bool true), ("data", .null)]) }

/-- A transport answering immediately with the successful envelope. -/
def tr200 : FetchCall → FetchBehavior := fun _ => .arrives 0 resp200

/-! ### Claim C1 -/

/-- C1: every call through get / post / put / patch / delete delegates to
HttpClient.request with the assembled descriptor (see the verb helpers
above), so the claim is settled over request for an arbitrary descriptor:
whenever any step of the try block of HttpClient.request fails
(request interceptor, transport, or response interceptor), the caller
receives exactly one rejected result carrying the normalized ApiError whose
code defaults to UNKNOWN_ERROR and whose message defaults to the generic
fallback when the underlying failure supplies none; that object runs
through the full error-interceptor chain (in order, even when error
interceptors throw — their exceptions are swallowed) and the error finally
re-raised is that same normalized object, not anything an error interceptor
threw. -/
theorem c1_error_pipeline (cl : HttpClient) (cfg : RequestConfig)
    (transport : FetchCall → FetchBehavior) (w : World) (u : Thrown)
    (h : (requestTry cl cfg transport w).2 = Except.error u) :
    request cl cfg transport w
      = (applyErrorInterceptors cl.errorInterceptors (requestTry cl cfg transport w).1
          (normalizeError u),
         Except.error (normalizeError u))
    ∧ (request cl cfg transport w).1.trace
        = (requestTry cl cfg transport w).1.trace
          ++ cl.errorInterceptors.map (fun i => Event.errInvoked i.id)
    ∧ ((thrownCode u = none ∨ ∃ c, thrownCode u = some c ∧ jsTruthy c = false) →
        codeOrDefault u = .str "UNKNOWN_ERROR")
    ∧ ((thrownMsg u = none ∨ ∃ m, thrownMsg u = some m ∧ jsTruthy m = false) →
        msgOrDefault u = .str UNKNOWN_ERROR_MSG)
    ∧ normalizeError u = .api (codeOrDefault u) (msgOrDefault u) u := by
  have h₁ := request_error_eq cl cfg transport w u h
  refine ⟨h₁, ?_, ?_, ?_, rfl⟩
  · rw [h₁]
    exact applyErrorInterceptors_trace cl.errorInterceptors
      (requestTry cl cfg transport w).1 (normalizeError u)
  · rintro (hc | ⟨c, hc, hf⟩) <;> simp [codeOrDefault, hc]
    intro htr
    rw [hf] at htr
    exact absurd htr (by simp)
  · rintro (hm | ⟨m, hm, hf⟩) <;> simp [msgOrDefault, hm]
    intro htr
    rw [hf] at htr
    exact absurd htr (by simp)

/-- Witness for C1 at a concrete failing transport with an extra throwing
error interceptor registered after the default one. -/
def clThrowing : HttpClient :=
  http.addErrorInterceptor ⟨1, fun eff _ => (eff, .error (.js "Error" none "boom"))⟩

theorem c1_error_pipeline_witness :
    (request clThrowing cfgX trFailW wEmptyW).2
      = Except.error (normalizeError (Thrown.js "TypeError" none "Failed to fetch")) := by
  have h := c1_error_pipeline clThrowing cfgX trFailW wEmptyW
    (Thrown.js "TypeError" none "Failed to fetch") (by rfl)
  rw [h.1]

/-! ### Claim C2 (code bug) -/

/-- A world holding a persisted token, away from the login view. -/
def w401 : World :=
  { eff := { storage := [(TOKEN_KEY, Json.str "old-token")], locationPath := "/dashboard" } }

/-- A transport answering every call with status 401. -/
def tr401 : FetchCall → FetchBehavior := fun _ =>
  .arrives 0
    { status := 401,
      jsonBody := some (.obj [("success", .bool false), ("message", .str "Unauthorized")]) }

/-- C2 (code bug): on a 401 response the normalized ApiError reaching the
error interceptors has no status property, so the 401 branch of the default
error interceptor never fires: the persisted token is NOT cleared, no
redirect to the login view happens, and the notice emitted is the error
message rather than the unauthorized notice.  The claim describes the
commented intent of the 401 branch, which is unreachable from the request
pipeline. -/
theorem c2_401_branch_unreachable :
    (request http cfgX tr401 w401).1.eff.storage = [(TOKEN_KEY, Json.str "old-token")]
    ∧ (request http cfgX tr401 w401).1.eff.redirects = []
    ∧ (request http cfgX tr401 w401).1.eff.notices = ["Unauthorized"]
    ∧ (request http cfgX tr401 w401).2
        = Except.error (.api (.str "UNKNOWN_ERROR") (.str "Unauthorized")
            (.js "Error" none "Unauthorized"))
    ∧ (∀ u : Thrown, thrownStatus (normalizeError u) = none) :=
  ⟨rfl, rfl, rfl, rfl, fun _ => rfl⟩

/-! ### Claim C5 -/

/-- The 409 envelope of the duplicated-email scenario. -/
def body409 : Json := .obj [("success", .bool false), ("message", .str "邮箱已存在")]

/-- A transport answering every call with the 409 envelope. -/
def tr409 : FetchCall → FetchBehavior := fun _ =>
  .arrives 0 { status := 409, jsonBody := some body409 }

/-- The createUser-style POST descriptor of the duplicated-email scenario. -/
def cfg409 : RequestConfig :=
  { url := "/users", method := some .POST,
    data := some (.json (.obj [("email", .str "a@b.c")])) }

/-- C5: the default response interceptor decodes a 2xx transport response
as the envelope and raises, for any other status, an Error carrying the
server-supplied message (the generic server-error message when the body
supplies none); in particular the 409 response with the duplicated-email
body rejects the whole call with an error whose message equals that body
message. -/
theorem c5_default_response_interceptor (r : TransportResponse) (eff : EffWorld)
    (data : Json) (hb : r.jsonBody = some data) :
    defaultResponseInterceptor.run eff (.response r)
      = (if 200 ≤ r.status ∧ r.status < 300 then (eff, Except.ok (.json data))
         else (eff, Except.error (.js "Error" none (serverErrMsg data))))
    ∧ (∀ m, jlookup data "message" = some m → jsTruthy m = true →
        serverErrMsg data = jsToString m)
    ∧ (jlookup data "message" = none → serverErrMsg data = SERVER_ERROR_MSG)
    ∧ (request http cfg409 tr409 wEmptyW).2
        = Except.error (.api (.str "UNKNOWN_ERROR") (.str "邮箱已存在")
            (.js "Error" none "邮箱已存在")) := by
  refine ⟨?_, ?_, ?_, rfl⟩
  · simp only [defaultResponseInterceptor]
    rw [hb]
  · intro m hm ht
    simp [serverErrMsg, hm, ht]
  · intro hm
    simp [serverErrMsg, hm]

theorem c5_default_response_interceptor_witness :
    defaultResponseInterceptor.run {} (.response { status := 409, jsonBody := some body409 })
      = ({}, Except.error (.js "Error" none "邮箱已存在")) := by
  have h := (c5_default_response_interceptor
    { status := 409, jsonBody := some body409 } {} body409 rfl).1
  rw [h, if_neg (by decide : ¬((200:Nat) ≤ 409 ∧ (409:Nat) < 300))]
  rfl

/-! ### Claim C6 (corrected) -/

/-- A transport answering after 5000 ms. -/
def trSlow : FetchCall → FetchBehavior := fun _ => .arrives 5000 resp200

/-- C6 counterexample: a descriptor with the timeout override 0 present.
Under the claim the configured timeout is that override, the response
arriving at 5000 ms is not within it, and the call should reject with a
timeout error — but the code treats the falsy override as absent, uses the
10000 ms client default and resolves successfully. -/
theorem c6_zero_timeout_counterexample :
    (request http { url := "/x", timeout := some 0 } trSlow wEmptyW).2
      = Except.ok (.json (.obj [("success", .bool true), ("data", .null)]))
    ∧ (mkFetchCall http { url := "/x", timeout := some 0 }).timeoutMs = 10000 :=
  ⟨rfl, rfl⟩

/-- C6 (amended): the effective timeout is the descriptor override when
present and nonzero (a zero override falls back to the client default),
otherwise the client default; whenever the transport does not complete
within it, the fetch is aborted by the TimeoutError DOMException, the
response-interceptor chain never runs (only the fetched call and the error
chain appear in the trace) and the call rejects with the normalized
timeout-classified error. -/
theorem c6_timeout_rejects (cl : HttpClient) (cfg : RequestConfig)
    (transport : FetchCall → FetchBehavior) (w w₁ : World) (fc : RequestConfig)
    (h : applyRequestInterceptors cl.requestInterceptors w cfg = (w₁, Except.ok fc))
    (ht : fetchResult (transport (mkFetchCall cl fc)) (mkFetchCall cl fc).timeoutMs
            = Except.error timeoutThrown) :
    (mkFetchCall cl fc).timeoutMs = timeoutOrDefault fc.timeout cl.timeout
    ∧ request cl cfg transport w
        = (applyErrorInterceptors cl.errorInterceptors
            (w₁.log (.fetched (mkFetchCall cl fc))) (normalizeError timeoutThrown),
           Except.error (normalizeError timeoutThrown))
    ∧ (request cl cfg transport w).1.trace
        = w₁.trace ++ [Event.fetched (mkFetchCall cl fc)]
          ++ cl.errorInterceptors.map (fun i => Event.errInvoked i.id)
    ∧ normalizeError timeoutThrown
        = .api (.num 23) (.str "signal timed out") timeoutThrown := by
  have hTry := requestTry_phase_eq cl cfg transport w w₁ fc h
  rw [ht] at hTry
  have h₂ : (requestTry cl cfg transport w).2 = Except.error timeoutThrown := by rw [hTry]
  have hReq := request_error_eq cl cfg transport w timeoutThrown h₂
  have hFst : (requestTry cl cfg transport w).1 = w₁.log (.fetched (mkFetchCall cl fc)) := by
    rw [hTry]
  rw [hFst] at hReq
  refine ⟨rfl, hReq, ?_, rfl⟩
  rw [hReq]
  rw [applyErrorInterceptors_trace]
  simp [World.log, List.append_assoc]

theorem c6_timeout_rejects_witness :
    (request http cfgX trHangs wEmptyW).2
      = Except.error (normalizeError timeoutThrown) := by
  have h := c6_timeout_rejects http cfgX trHangs wEmptyW
    ⟨{}, [Event.reqInvoked 0 cfgX]⟩ cfgX (by rfl) (by rfl)
  rw [h.2.1]

/-! ### Claim C7 (corrected) -/

/-- Does the request attach a FormData body (truthy FormData payload on a
body-allowing verb)?  Exactly then does the source delete the Content-Type
header entry. -/
def sentFormData (fc : RequestConfig) : Bool :=
  match fc.data with
  | some (.formData _) => methodAllowsBody (fc.method.getD .GET)
  | _ => false

/-- Modelled from the claim's words (not from the source): default headers
merged with the overrides, with only the DEFAULT Content-Type entry (value
application/json) omitted when the body is a FormData payload. -/
def claimSentHeaders (fc : RequestConfig) : List (String × String) :=
  let merged := mergedHeaders fc.headers
  if sentFormData fc then
    merged.filter (fun kv => ¬(kv.1 = "Content-Type" ∧ kv.2 = "application/json"))
  else merged

/-- A POST descriptor with a FormData body and an explicit Content-Type
override. -/
def cfg7 : RequestConfig :=
  { url := "/x", method := some .POST,
    data := some (.formData [("file", ⟨"a.png"⟩)]),
    headers := [("Content-Type", "text/plain")] }

/-- C7 counterexample: with a FormData body the source deletes the
Content-Type entry even when it was supplied by the per-call overrides, so
the sent headers are empty where the claim predicts the override entry to
survive. -/
theorem c7_counterexample :
    (mkFetchCall http cfg7).headers = []
    ∧ claimSentHeaders cfg7 = [("Content-Type", "text/plain")]
    ∧ (mkFetchCall http cfg7).headers ≠ claimSentHeaders cfg7
    ∧ fetchedCalls (request http cfg7 tr200 wEmptyW).1.trace = [mkFetchCall http cfg7] := by
  exact ⟨rfl, rfl, by decide, rfl⟩

/-- C7 (amended): the transport headers equal the default Content-Type
application/json merged with the per-call overrides, except that when the
request attaches a FormData body the Content-Type entry — whether it came
from the default or from an override — is deleted from the sent headers. -/
theorem c7_headers (cl : HttpClient) (cfg : RequestConfig)
    (transport : FetchCall → FetchBehavior) (w w₁ : World) (fc : RequestConfig)
    (h : applyRequestInterceptors cl.requestInterceptors w cfg = (w₁, Except.ok fc)) :
    fetchedCalls (request cl cfg transport w).1.trace
      = fetchedCalls w₁.trace ++ [mkFetchCall cl fc]
    ∧ (mkFetchCall cl fc).headers
        = (if sentFormData fc then objDelete (mergedHeaders fc.headers) "Content-Type"
           else mergedHeaders fc.headers) := by
  refine ⟨request_fetch_log cl cfg transport w w₁ fc h, ?_⟩
  cases hd : fc.data with
  | none => simp [mkFetchCall, sentFormData, hd, dataTruthy]
  | some jd =>
    cases jd with
    | json j =>
      cases hm : methodAllowsBody (fc.method.getD .GET) <;>
        cases htr : jsTruthy j <;>
          simp [mkFetchCall, sentFormData, hd, dataTruthy, hm, htr]
    | formData f =>
      cases hm : methodAllowsBody (fc.method.getD .GET) <;>
        simp [mkFetchCall, sentFormData, hd, dataTruthy, hm]

theorem c7_headers_witness :
    (mkFetchCall http cfg7).headers
      = (if sentFormData cfg7 then objDelete (mergedHeaders cfg7.headers) "Content-Type"
         else mergedHeaders cfg7.headers) :=
  (c7_headers http cfg7 tr200 wEmptyW ⟨{}, [Event.reqInvoked 0 cfg7]⟩ cfg7 (by rfl)).2

/-! ### Claim C8 (code bug) -/

/-- A world with a persisted (truthy) auth token. -/
def effTok : EffWorld := { storage := [(TOKEN_KEY, Json.str "secret-token")] }

/-- C8 (code bug): upload calls setRequestHeader before open, so whenever a
persisted token exists the XHR throws InvalidStateError inside the promise
executor: the call rejects immediately, nothing is sent and no
Authorization header is ever attached — for every upload target, file and
network outcome. -/
theorem c8_upload_rejects_with_token (url : String) (file : FileV)
    (outcome : UploadOutcome) :
    HttpClient.upload http url file effTok outcome = (none, .error invalidStateThrown) :=
  rfl

/-! ### Claim C9 (corrected) -/

/-- A download environment where the DOM save action fails after the object
URL was created. -/
def envSaveFail : DownloadEnv :=
  { outcome := .resp 200, blobResult := .ok (),
    saveResult := .error (.js "Error" none "appendChild failed") }

/-- C9 counterexample: when a step after the object URL's creation fails,
download creates the URL but never revokes it (there is no finally), the
failure is notified and re-thrown — contradicting "released regardless of
outcome". -/
theorem c9_url_not_revoked_on_save_failure :
    (HttpClient.download http "/export" none {} envSaveFail).1.objectURLs = [0]
    ∧ (HttpClient.download http "/export" none {} envSaveFail).1.revokedURLs = []
    ∧ (HttpClient.download http "/export" none {} envSaveFail).2
        = Except.error (.js "Error" none "appendChild failed")
    ∧ (HttpClient.download http "/export" none {} envSaveFail).1.notices
        = ["文件下载失败"] :=
  ⟨rfl, rfl, rfl, rfl⟩

/-- C9 (amended): after a successful fetch and blob read, download creates
one object URL and revokes it exactly when the client-side save action
completes; when the save action fails the URL stays unrevoked and the
failure is notified and re-thrown. -/
theorem c9_revoke_on_success_only (cl : HttpClient) (url : String) (fn : Option String)
    (eff : EffWorld) (env : DownloadEnv) (s : Nat)
    (hf : env.outcome = .resp s) (hs : 200 ≤ s ∧ s < 300)
    (hb : env.blobResult = .ok ()) :
    HttpClient.download cl url fn eff env
      = match env.saveResult with
        | .ok _ =>
          ({ eff with objectURLs := eff.objectURLs ++ [eff.objectURLs.length],
                      revokedURLs := eff.revokedURLs ++ [eff.objectURLs.length] },
           .ok ())
        | .error e =>
          ({ eff with objectURLs := eff.objectURLs ++ [eff.objectURLs.length],
                      notices := eff.notices ++ ["文件下载失败"] },
           .error e) := by
  obtain ⟨o, b, sv⟩ := env
  subst hf
  subst hb
  cases sv with
  | ok u =>
    cases u
    simp [HttpClient.download, hs.1, hs.2]
  | error e =>
    simp [HttpClient.download, hs.1, hs.2]

/-- An all-successful download environment. -/
def envSaveOk : DownloadEnv :=
  { outcome := .resp 200, blobResult := .ok (), saveResult := .ok () }

theorem c9_revoke_on_success_only_witness :
    HttpClient.download http "/export" none {} envSaveOk
      = ({ objectURLs := [0], revokedURLs := [0] }, .ok ()) := by
  have h := c9_revoke_on_success_only http "/export" none {} envSaveOk 200 rfl
    (by decide) rfl
  exact h

/-! ### Claim C10 -/

/-- C10: the transport call assembled for a final descriptor carries a body
only when the verb is POST, PUT or PATCH and the data field is truthy; in
particular GET and DELETE requests (also the default verb) never send a
body, silently ignoring any data payload. -/
theorem c10_no_body_for_get_delete (cl : HttpClient) (cfg : RequestConfig)
    (transport : FetchCall → FetchBehavior) (w w₁ : World) (fc : RequestConfig)
    (h : applyRequestInterceptors cl.requestInterceptors w cfg = (w₁, Except.ok fc)) :
    fetchedCalls (request cl cfg transport w).1.trace
      = fetchedCalls w₁.trace ++ [mkFetchCall cl fc]
    ∧ ((fc.method.getD .GET = .GET ∨ fc.method.getD .GET = .DELETE) →
        (mkFetchCall cl fc).body = none)
    ∧ (∀ b, (mkFetchCall cl fc).body = some b →
        methodAllowsBody (fc.method.getD .GET) = true ∧ dataTruthy fc.data = true) := by
  refine ⟨request_fetch_log cl cfg transport w w₁ fc h, ?_, ?_⟩
  · rintro (hm | hm) <;> simp [mkFetchCall, hm, methodAllowsBody]
  · intro b hb
    cases hcond : methodAllowsBody (fc.method.getD .GET) && dataTruthy fc.data with
    | false =>
      exfalso
      simp [mkFetchCall, hcond] at hb
    | true =>
      simpa [Bool.and_eq_true] using hcond

/-- A DELETE descriptor carrying a (silently ignored) data payload. -/
def cfg10 : RequestConfig :=
  { url := "/x", method := some .DELETE, data := some (.json (.str "ignored")) }

theorem c10_no_body_for_get_delete_witness :
    (mkFetchCall http cfg10).body = none :=
  (c10_no_body_for_get_delete http cfg10 tr200 wEmptyW
    ⟨{}, [Event.reqInvoked 0 cfg10]⟩ cfg10 (by rfl)).2.1 (Or.inr rfl)

/-! ### Claim C4: encoding lemmas -/

theorem hexVal_hexDigitCode (n : Nat) (h : n < 16) : hexVal (hexDigitCode n) = n := by
  unfold hexVal hexDigitCode
  split_ifs <;> omega

theorem hexDigitCode_ne (n : Nat) : hexDigitCode n ≠ 38 ∧ hexDigitCode n ≠ 61 := by
  unfold hexDigitCode
  split_ifs <;> omega

theorem isSafeByte_facts (b : Nat) (h : isSafeByte b = true) :
    b ≠ 37 ∧ b ≠ 43 ∧ b ≠ 38 ∧ b ≠ 61 := by
  simp only [isSafeByte, Bool.or_eq_true, Bool.and_eq_true, decide_eq_true_eq] at h
  omega

theorem formDecode_cons (b : Nat) (rest : List Nat) :
    formDecode (b :: rest)
      = if b = 37 then
          (match rest with
           | h :: l :: rest₂ => (hexVal h * 16 + hexVal l) :: formDecode rest₂
           | [] => [b]
           | [h] => b :: (if h = 43 then [32] else [h]))
        else if b = 43 then 32 :: formDecode rest
        else b :: formDecode rest := by
  rw [formDecode.eq_def]

theorem byteRound (b : Nat) (hb : b < 256) (tail : List Nat) :
    formDecode (encByte b ++ tail) = b :: formDecode tail := by
  unfold encByte
  split_ifs with h32 hsafe
  · subst h32
    show formDecode (43 :: tail) = 32 :: formDecode tail
    rw [formDecode_cons]
    norm_num
  · obtain ⟨h37, h43, _, _⟩ := isSafeByte_facts b hsafe
    show formDecode (b :: tail) = b :: formDecode tail
    rw [formDecode_cons, if_neg h37, if_neg h43]
  · show formDecode (37 :: hexDigitCode (b / 16) :: hexDigitCode (b % 16) :: tail)
        = b :: formDecode tail
    rw [formDecode_cons, if_pos rfl]
    show (hexVal (hexDigitCode (b / 16)) * 16 + hexVal (hexDigitCode (b % 16)))
        :: formDecode tail = b :: formDecode tail
    have hvals : hexVal (hexDigitCode (b / 16)) * 16 + hexVal (hexDigitCode (b % 16)) = b := by
      rw [hexVal_hexDigitCode (b / 16) (by omega), hexVal_hexDigitCode (b % 16) (by omega)]
      omega
    rw [hvals]

theorem encByte_ne (b : Nat) : 38 ∉ encByte b ∧ 61 ∉ encByte b := by
  unfold encByte
  split_ifs with h32 hsafe
  · simp
  · obtain ⟨_, _, h38, h61⟩ := isSafeByte_facts b hsafe
    simp [List.mem_cons]
    omega
  · have h₁ := hexDigitCode_ne (b / 16)
    have h₂ := hexDigitCode_ne (b % 16)
    simp [List.mem_cons]
    omega

theorem formEncode_ne (bs : List Nat) : 38 ∉ formEncode bs ∧ 61 ∉ formEncode bs := by
  constructor <;>
  · intro hmem
    rw [formEncode, List.mem_flatMap] at hmem
    obtain ⟨b, _, hb⟩ := hmem
    first
      | exact (encByte_ne b).1 hb
      | exact (encByte_ne b).2 hb

theorem formDecode_formEncode_append (bs : List Nat) (hv : ∀ b ∈ bs, b < 256)
    (tail : List Nat) :
    formDecode (formEncode bs ++ tail) = bs ++ formDecode tail := by
  induction bs with
  | nil => simp [formEncode]
  | cons b bs ih =>
    have h₁ : formEncode (b :: bs) ++ tail = encByte b ++ (formEncode bs ++ tail) := by
      rw [formEncode, List.flatMap_cons, List.append_assoc]
      rfl
    rw [h₁, byteRound b (hv b (List.mem_cons_self b bs)) _]
    rw [ih (fun x hx => hv x (List.mem_cons_of_mem b hx))]
    simp

/-- Round trip: decoding an encoded byte sequence restores it exactly. -/
theorem formDecode_formEncode (bs : List Nat) (hv : ∀ b ∈ bs, b < 256) :
    formDecode (formEncode bs) = bs := by
  have h := formDecode_formEncode_append bs hv []
  simpa [formDecode] using h

theorem char_toNat_lt (c : Char) : c.toNat < 1114112 := by
  have h := c.valid
  unfold UInt32.isValidChar Nat.isValidChar at h
  rcases h with h | ⟨h1, h2⟩ <;> simp [Char.toNat] <;> omega

theorem utf8Char_lt (c : Char) : ∀ b ∈ utf8Char c, b < 256 := by
  have hc := char_toNat_lt c
  intro b hb
  simp only [utf8Char] at hb
  split_ifs at hb <;> simp at hb <;> omega

theorem strBytes_lt (s : String) : ∀ b ∈ strBytes s, b < 256 := by
  intro b hb
  rw [strBytes, List.mem_flatMap] at hb
  obtain ⟨c, _, hc⟩ := hb
  exact utf8Char_lt c b hc

theorem splitEqAux_no61 (k : List Nat) (v acc : List Nat) (hk : 61 ∉ k) :
    splitEqAux (k ++ 61 :: v) acc = (acc.reverse ++ k, v) := by
  induction k generalizing acc with
  | nil => simp [splitEqAux]
  | cons a k ih =>
    have ha : a ≠ 61 := fun h => hk (h ▸ List.mem_cons_self a k)
    have hk₂ : 61 ∉ k := fun h => hk (List.mem_cons_of_mem a h)
    show splitEqAux (a :: (k ++ 61 :: v)) acc = (acc.reverse ++ a :: k, v)
    rw [splitEqAux, if_neg ha, ih (a :: acc) hk₂]
    simp

theorem splitAmpAux_no38 (c acc : List Nat) (hc : 38 ∉ c) :
    splitAmpAux c acc = [acc.reverse ++ c] := by
  induction c generalizing acc with
  | nil => simp [splitAmpAux]
  | cons a c ih =>
    have ha : a ≠ 38 := fun h => hc (h ▸ List.mem_cons_self a c)
    have hc₂ : 38 ∉ c := fun h => hc (List.mem_cons_of_mem a h)
    rw [splitAmpAux, if_neg ha, ih (a :: acc) hc₂]
    simp

theorem splitAmpAux_sep (c rest acc : List Nat) (hc : 38 ∉ c) :
    splitAmpAux (c ++ 38 :: rest) acc = (acc.reverse ++ c) :: splitAmpAux rest [] := by
  induction c generalizing acc with
  | nil => simp [splitAmpAux]
  | cons a c ih =>
    have ha : a ≠ 38 := fun h => hc (h ▸ List.mem_cons_self a c)
    have hc₂ : 38 ∉ c := fun h => hc (List.mem_cons_of_mem a h)
    show splitAmpAux (a :: (c ++ 38 :: rest)) acc = (acc.reverse ++ a :: c) :: splitAmpAux rest []
    rw [splitAmpAux, if_neg ha, ih (a :: acc) hc₂]
    simp

theorem splitAmp_of_ne_nil (cs : List Nat) (h : cs ≠ []) :
    splitAmp cs = splitAmpAux cs [] := by
  cases cs with
  | nil => exact absurd rfl h
  | cons b rest => rfl

theorem splitAmp_joinAmp (comps : List (List Nat))
    (h38 : ∀ c ∈ comps, 38 ∉ c) (hne : ∀ c ∈ comps, c ≠ []) :
    splitAmp (joinAmp comps) = comps := by
  induction comps with
  | nil => rfl
  | cons c rest ih =>
    cases rest with
    | nil =>
      have hc := h38 c (List.mem_cons_self c [])
      rw [joinAmp, splitAmp_of_ne_nil c (hne c (List.mem_cons_self c []))]
      rw [splitAmpAux_no38 c [] hc]
      simp
    | cons c₂ rest₂ =>
      have hc : 38 ∉ c := h38 c (List.mem_cons_self c _)
      have hcne : c ≠ [] := hne c (List.mem_cons_self c _)
      have hjoin : joinAmp (c :: c₂ :: rest₂) = c ++ 38 :: joinAmp (c₂ :: rest₂) := rfl
      have hjne : joinAmp (c₂ :: rest₂) ≠ [] := by
        have hc₂ne : c₂ ≠ [] := hne c₂ (List.mem_cons_of_mem c (List.mem_cons_self c₂ _))
        cases rest₂ with
        | nil => simpa [joinAmp] using hc₂ne
        | cons c₃ rest₃ =>
          simp only [joinAmp]
          intro hEq
          cases c₂ with
          | nil => exact hc₂ne rfl
          | cons x xs => simp at hEq
      have happ : c ++ 38 :: joinAmp (c₂ :: rest₂) ≠ [] := by
        cases c <;> simp
      rw [hjoin, splitAmp_of_ne_nil _ happ, splitAmpAux_sep c _ [] hc]
      rw [← splitAmp_of_ne_nil _ hjne]
      rw [ih (fun x hx => h38 x (List.mem_cons_of_mem c hx))
            (fun x hx => hne x (List.mem_cons_of_mem c hx))]
      simp

theorem splitEq_pairCodes (kv : String × String) :
    splitEq (pairCodes kv) = (formEncode (strBytes kv.1), formEncode (strBytes kv.2)) := by
  rw [pairCodes, splitEq, splitEqAux_no61 _ _ [] (formEncode_ne (strBytes kv.1)).2]
  simp

theorem pairCodes_no38 (kv : String × String) : 38 ∉ pairCodes kv := by
  intro hmem
  rw [pairCodes, List.mem_append, List.mem_cons] at hmem
  rcases hmem with h | h | h
  · exact (formEncode_ne (strBytes kv.1)).1 h
  · omega
  · exact (formEncode_ne (strBytes kv.2)).1 h

theorem pairCodes_ne_nil (kv : String × String) : pairCodes kv ≠ [] := by
  rw [pairCodes]
  cases hf : formEncode (strBytes kv.1) <;> simp

/-- Parsing the serialized query recovers every appended pair, in order,
with keys and values restored byte-for-byte by decoding. -/
theorem splitQuery_serializePairs (l : List (String × String)) :
    (splitQuery (serializePairs l)).map (fun kv => (formDecode kv.1, formDecode kv.2))
      = l.map (fun kv => (strBytes kv.1, strBytes kv.2)) := by
  rw [splitQuery, serializePairs]
  rw [splitAmp_joinAmp (l.map pairCodes)
        (by intro c hc; rw [List.mem_map] at hc; obtain ⟨kv, _, rfl⟩ := hc
            exact pairCodes_no38 kv)
        (by intro c hc; rw [List.mem_map] at hc; obtain ⟨kv, _, rfl⟩ := hc
            exact pairCodes_ne_nil kv)]
  rw [List.map_map, List.map_map]
  refine List.map_congr_left ?_
  intro kv _
  simp only [Function.comp_apply, splitEq_pairCodes]
  rw [formDecode_formEncode _ (strBytes_lt kv.1), formDecode_formEncode _ (strBytes_lt kv.2)]

theorem searchParamsOf_eq (ps : List (String × ParamValue)) :
    searchParamsOf ps
      = (ps.filter (fun kv => keepParam kv.2)).map
          (fun kv => (kv.1, paramToString kv.2)) := by
  have hgen : ∀ acc, ps.foldl
      (fun acc kv => if keepParam kv.2 then acc ++ [(kv.1, paramToString kv.2)] else acc) acc
      = acc ++ (ps.filter (fun kv => keepParam kv.2)).map
          (fun kv => (kv.1, paramToString kv.2)) := by
    induction ps with
    | nil => intro acc; simp
    | cons kv ps ih =>
      intro acc
      cases hk : keepParam kv.2 <;> simp [List.foldl_cons, hk, ih, List.filter_cons]
  simpa [searchParamsOf] using hgen []

/-- C4: buildURL's query serialization excludes exactly the parameters whose
value is null, undefined or the empty string; every kept parameter appears
in order and its key and stringified value round-trip byte-for-byte through
encode then decode; the getUsers scenario with current 2, pageSize 20 and
empty search builds the URL /users?current=2&pageSize=20, and buildURL
applied to the same parameters produces /api/users?current=2&pageSize=20. -/
theorem c4_query_roundtrip (ps : List (String × ParamValue)) :
    (splitQuery (serializePairs (searchParamsOf ps))).map
        (fun kv => (formDecode kv.1, formDecode kv.2))
      = (ps.filter (fun kv => keepParam kv.2)).map
          (fun kv => (strBytes kv.1, strBytes (paramToString kv.2)))
    ∧ getUsersUrl { current := some 2, pageSize := some 20, search := some "" }
        = "/users?current=2&pageSize=20"
    ∧ buildURL "/api" "/users"
        (some [("current", .num 2), ("pageSize", .num 20), ("search", .str "")])
        = "/api/users?current=2&pageSize=20" := by
  refine ⟨?_, by rfl, by rfl⟩
  rw [searchParamsOf_eq, splitQuery_serializePairs, List.map_map]
  rfl

/-! ### Claim C3 -/

/-- C3: when the request-interceptor phase of a call completes, every
registered request interceptor ran exactly once, strictly in registration
order (the trace lists one invocation per interceptor, in order), each was
awaited before the next started, and interceptor k+1 received exactly the
configuration interceptor k returned: the snapshot sequence ss records the
state and descriptor handed to each interceptor, with ss 0 the initial pair
and ss (k+1) produced by interceptor k from ss k. -/
theorem c3_interceptor_chain (is : List ReqInterceptor) (w : World) (c c₁ : RequestConfig)
    (h : (applyRequestInterceptors is w c).2 = Except.ok c₁) :
    ∃ ss : Nat → EffWorld × RequestConfig,
      ss 0 = (w.eff, c)
      ∧ ss is.length = ((applyRequestInterceptors is w c).1.eff, c₁)
      ∧ (applyRequestInterceptors is w c).1.trace
          = w.trace
            ++ List.zipWith (fun (i : ReqInterceptor) k => Event.reqInvoked i.id (ss k).2)
                is (List.range is.length)
      ∧ ∀ k (hk : k < is.length),
          (is.get ⟨k, hk⟩).run (ss k).1 (ss k).2
            = ((ss (k + 1)).1, Except.ok ((ss (k + 1)).2)) := by
  induction is generalizing w c with
  | nil =>
    have hc : c₁ = c := by simpa [applyRequestInterceptors] using h.symm
    refine ⟨fun _ => (w.eff, c), rfl, ?_, by simp [applyRequestInterceptors], ?_⟩
    · show (w.eff, c) = ((applyRequestInterceptors [] w c).1.eff, c₁)
      rw [hc]
      rfl
    · intro k hk
      exact absurd hk (Nat.not_lt_zero k)
  | cons i is ih =>
    cases hrun : i.run (w.log (.reqInvoked i.id c)).eff c with
    | mk eff₂ r =>
      cases r with
      | error e =>
        have happ : applyRequestInterceptors (i :: is) w c
            = (⟨eff₂, (w.log (.reqInvoked i.id c)).trace⟩, .error e) := by
          rw [applyRequestInterceptors, hrun]
        rw [happ] at h
        exact absurd h (by simp)
      | ok c₂ =>
        have happ : applyRequestInterceptors (i :: is) w c
            = applyRequestInterceptors is ⟨eff₂, (w.log (.reqInvoked i.id c)).trace⟩ c₂ := by
          rw [applyRequestInterceptors, hrun]
        rw [happ] at h
        obtain ⟨ss, h0, hN, htr, hstep⟩ := ih ⟨eff₂, (w.log (.reqInvoked i.id c)).trace⟩ c₂ h
        refine ⟨fun k => match k with | 0 => (w.eff, c) | k + 1 => ss k, rfl, ?_, ?_, ?_⟩
        · show ss is.length = ((applyRequestInterceptors (i :: is) w c).1.eff, c₁)
          rw [happ]
          exact hN
        · show (applyRequestInterceptors (i :: is) w c).1.trace = _
          rw [happ, htr]
          simp [World.log, List.range_succ_eq_map, List.zipWith_map_right, List.append_assoc]
        · intro k hk
          cases k with
          | zero =>
            show i.run w.eff c = ((ss 0).1, Except.ok ((ss 0).2))
            rw [h0]
            exact hrun
          | succ k =>
            exact hstep k (Nat.lt_of_succ_lt_succ hk)

/-- Two plain request interceptors that extend the url, for the witness. -/
def reqIncA : ReqInterceptor := ⟨1, fun eff c => (eff, .ok { c with url := c.url ++ "a" })⟩

/-- Second witness interceptor. -/
def reqIncB : ReqInterceptor := ⟨2, fun eff c => (eff, .ok { c with url := c.url ++ "b" })⟩

/-- The witness interceptor registry. -/
def is3 : List ReqInterceptor := [reqIncA, reqIncB]

/-- The witness start descriptor. -/
def cfgSlash : RequestConfig := { url := "/" }

/-- The witness final descriptor. -/
def cfgSlashAB : RequestConfig := { url := "/ab" }

theorem c3_interceptor_chain_witness :
    ∃ ss : Nat → EffWorld × RequestConfig,
      ss 0 = (wEmptyW.eff, cfgSlash)
      ∧ ss is3.length
          = ((applyRequestInterceptors is3 wEmptyW cfgSlash).1.eff, cfgSlashAB)
      ∧ (applyRequestInterceptors is3 wEmptyW cfgSlash).1.trace
          = wEmptyW.trace
            ++ List.zipWith (fun (i : ReqInterceptor) k => Event.reqInvoked i.id (ss k).2)
                is3 (List.range is3.length)
      ∧ ∀ k (hk : k < is3.length),
          (is3.get ⟨k, hk⟩).run (ss k).1 (ss k).2
            = ((ss (k + 1)).1, Except.ok ((ss (k + 1)).2)) :=
  c3_interceptor_chain is3 wEmptyW cfgSlash cfgSlashAB (by rfl)

end HttpSpec
